import Mathlib

/-!
Verification of the shared toggle library ("toggles"): a shallow embedding of
the predicate table, Noun view construction, verb dispatcher and the shared
toggle registry, with theorems settling the specification's claims.

Sources embedded:
* `src/src/utils.ts` — predicate table (`nounState`), `createNounFromState`,
  `setNounValue`;
* the verbs module (`verbPairs`, `createVerbs`, `toggle`, `verbs`);
* `src/src/globalNouns.ts` — `GlobalNounStore` (`get`, `acquire`, `release`,
  `subscribe`, `cleanup`, `clear`, `has`) and the bound setter closure;
* `src/index.ts` — the `useToggles` nouns proxy get trap (verb-name conflict
  check).

JS machine details modelled explicitly: `Map`/`Set` are association lists /
lists with insertion order; object identity of cached Nouns is modelled by a
monotonically increasing id; `Date.now()` is an explicit `now : Nat` argument;
`console.warn`/`console.error` output is collected as diagnostics; a thrown
exception is `Except.error`.
-/

namespace Toggles

/-! ### Predicate table (src/src/utils.ts lines 1-10) -/

def positiveStates : List String :=
  ["Active", "Open", "Shown", "Visible", "On", "Checked", "Enabled", "Expanded",
   "Activated", "Connected", "Focused", "Mounted", "Revealed", "Locked", "Subscribed"]

def negativeStates : List String :=
  ["Closed", "Hidden", "Off", "Unchecked", "Disabled", "Collapsed", "Deactivated",
   "Disconnected", "Blurred", "Concealed", "Unlocked"]

def hasStates : List String := ["Started", "Ended"]

/-- The predicate table `nounState`: `is<S>` keys from the positive and negative
state lists, plus `has<S>` keys where only the first (`hasStarted`) is `true`.
Mirrors the `Object.fromEntries` construction in src/src/utils.ts. -/
def nounState : List (String × Bool) :=
  positiveStates.map (fun s => ("is" ++ s, true))
  ++ negativeStates.map (fun s => ("is" ++ s, false))
  ++ (hasStates.enum.map (fun p => ("has" ++ p.2, p.1 == 0)))

/-- Own-key lookup in the predicate table (the read `nounState[prop]` for a
key the object itself carries; keys are unique so first-match is the match). -/
def lookupPolarity (p : String) : Option Bool :=
  (nounState.find? (fun q => q.1 == p)).map (fun q => q.2)

/-- The string-keyed properties every plain object inherits from
`Object.prototype` (the ECMAScript-defined set). The JS `in` operator walks
the prototype chain, so `prop in nounState` is also true for these. -/
def objectProtoKeys : List String :=
  ["constructor", "toString", "toLocaleString", "valueOf", "hasOwnProperty",
   "isPrototypeOf", "propertyIsEnumerable", "__proto__",
   "__defineGetter__", "__defineSetter__", "__lookupGetter__", "__lookupSetter__"]

/-- The JS check `prop in nounState` on the plain object `nounState`: true for
its own keys and for the keys inherited from `Object.prototype`. -/
def inNounState (p : String) : Bool :=
  (lookupPolarity p).isSome || objectProtoKeys.contains p

/-- Truthiness of `nounState[prop]` under the `in` check: an own entry is its
recorded boolean polarity; an inherited `Object.prototype` value is a method
(or, for `__proto__`, `Object.prototype` itself) and hence truthy. -/
def nounStateTruthy (p : String) : Bool :=
  match lookupPolarity p with
  | some pol => pol
  | none => true

/-! ### Noun construction (src/src/utils.ts `createNounFromState`) -/

/-- A property key passed to the Noun proxy's get trap: the hidden `NounSetter`
symbol, some other symbol, or a string key. -/
inductive NounProp where
  | setterSym
  | otherSym
  | str (s : String)
deriving DecidableEq

/-- The value a Noun property read evaluates to. -/
inductive NounValue where
  | undefined
  | bool (b : Bool)
  | str (s : String)
  | setter
deriving DecidableEq

/-- The proxy get trap of `createNounFromState name getActive setActive`,
evaluated at a moment when the underlying cell reads `active`. Mirrors
src/src/utils.ts lines 21-30: the `NounSetter` symbol answers the setter, the
string `"name"` answers the construction-time name, and a string passing the
`prop in nounState` check answers `nounState[prop] ? getActive() : !getActive()`.
The `in` operator walks the prototype chain, so besides the table's own keys
it also accepts the `Object.prototype` keys, whose inherited values are truthy
(the read then answers `getActive()` directly); anything else answers
`undefined`. Every read recomputes from the current cell value (the trap closes
over `getActive`, caching nothing), which is why `active` is an argument. -/
def nounPropGet (name : String) (active : Bool) : NounProp → NounValue
  | .setterSym => .setter
  | .otherSym => .undefined
  | .str p =>
      if p = "name" then .str name
      else if inNounState p then .bool (if nounStateTruthy p then active else !active)
      else .undefined

/-! ### Verb table and dispatcher (verbs module; src/src/utils.ts `setNounValue`) -/

/-- The verb pairs table `verbPairs` (positive name, negative name). -/
def verbPairs : List (String × String) :=
  [("open", "close"), ("show", "hide"), ("turnOn", "turnOff"), ("check", "uncheck"),
   ("enable", "disable"), ("expand", "collapse"), ("activate", "deactivate"),
   ("start", "end"), ("connect", "disconnect"), ("focus", "blur"),
   ("mount", "unmount"), ("reveal", "conceal"), ("display", "dismiss"),
   ("lock", "unlock"), ("subscribe", "unsubscribe")]

/-- Diagnostic severity of a console sink call. -/
inductive LogLevel where
  | warn
  | error
deriving DecidableEq

/-- The JS value a verb is applied to: `null`, `undefined`, or an object,
tracked with its `name` property (`none` renders as `"undefined"` in a template
string) and whether the hidden `NounSetter` key holds a function (a real Noun
proxy bound to a cell has it; a plain object does not). -/
inductive VerbTarget where
  | jsNull
  | jsUndefined
  | obj (name : Option String) (hasSetter : Bool)
deriving DecidableEq

/-- JS falsiness of a verb target (the `!noun` guard; objects are truthy). -/
def falsy : VerbTarget → Bool
  | .jsNull => true
  | .jsUndefined => true
  | .obj _ _ => false

def polarityWord (v : Bool) : String := if v then "positive" else "negative"

/-- Message of the first `console.warn` in `setNounValue` (no noun name). -/
def noSetterAnonMsg (v : Bool) : String :=
  "No setter on noun for " ++ polarityWord v ++ " action"

/-- Message of the second `console.warn` in `setNounValue` (interpolates
`noun.name`; a missing name renders as "undefined"). -/
def noSetterNamedMsg (nm : String) (v : Bool) : String :=
  "No setter on noun " ++ nm ++ " for " ++ polarityWord v ++ " action"

/-- `setNounValue noun value` acting on a cell currently reading `st`: returns
the new cell value together with the emitted diagnostics. Mirrors
src/src/utils.ts lines 33-42: falsy or non-object targets warn without a name;
an object without a function under the `NounSetter` key warns naming
`noun.name`; otherwise the setter is invoked with `value`. -/
def setNounValue (t : VerbTarget) (v : Bool) (st : Bool) :
    Bool × List (LogLevel × String) :=
  match t with
  | .jsNull => (st, [(.warn, noSetterAnonMsg v)])
  | .jsUndefined => (st, [(.warn, noSetterAnonMsg v)])
  | .obj nm hasSetter =>
      if hasSetter then (v, [])
      else (st, [(.warn, noSetterNamedMsg (nm.getD "undefined") v)])

/-- Reading the `NounSetter` property of a verb target, with JS semantics:
property access on `null`/`undefined` throws a TypeError (`Except.error`). -/
def readSetterProp : VerbTarget → Except String (Option Unit)
  | .jsNull => .error "TypeError: cannot read properties of null"
  | .jsUndefined => .error "TypeError: cannot read properties of undefined"
  | .obj _ hasSetter => .ok (if hasSetter then some () else none)

/-- Reading the `name` property of a verb target, with JS throw semantics. -/
def readNameProp : VerbTarget → Except String (Option String)
  | .jsNull => .error "TypeError: cannot read properties of null"
  | .jsUndefined => .error "TypeError: cannot read properties of undefined"
  | .obj nm _ => .ok nm

/-- `setNounValue` with the exception behaviour of each property access made
explicit: the source guards with `!noun` before touching `noun[NounSetter]`
and only reads `noun.name` on an object, so no access can throw. -/
def setNounValueChecked (t : VerbTarget) (v : Bool) (st : Bool) :
    Except String (Bool × List (LogLevel × String)) :=
  if falsy t then .ok (st, [(.warn, noSetterAnonMsg v)])
  else do
    let s ← readSetterProp t
    match s with
    | some _ => .ok (v, [])
    | none => do
        let nm ← readNameProp t
        .ok (st, [(.warn, noSetterNamedMsg (nm.getD "undefined") v)])

/-- JS truthiness of a Noun property read (used by `!noun?.isActive`). -/
def jsTruthy : NounValue → Bool
  | .undefined => false
  | .bool b => b
  | .str s => !(s == "")
  | .setter => true

/-- `noun?.isActive`: optional chaining yields `undefined` on `null`/`undefined`;
a Noun proxy answers through its get trap (polarity of "isActive" is read from
the predicate table); a plain object without the predicate yields `undefined`. -/
def optIsActive (t : VerbTarget) (st : Bool) : NounValue :=
  match t with
  | .jsNull => .undefined
  | .jsUndefined => .undefined
  | .obj nm hasSetter =>
      if hasSetter then nounPropGet (nm.getD "undefined") st (.str "isActive")
      else .undefined

/-- The kind of entry a verb name resolves to in the `verbs` record
(`{...positiveVerbs, ...negativeVerbs, toggle}`; the key sets are disjoint). -/
inductive VerbKind where
  | pos
  | neg
  | tog
deriving DecidableEq

/-- Resolution of a verb name against the `verbs` record; later spreads take
precedence, mirrored by checking `toggle`, then negative, then positive keys. -/
def verbKind? (v : String) : Option VerbKind :=
  if v == "toggle" then some .tog
  else if (verbPairs.map (fun q => q.2)).contains v then some .neg
  else if (verbPairs.map (fun q => q.1)).contains v then some .pos
  else none

/-- Applying the verb named `v` to target `t` over a cell reading `st`:
positive verbs call `setNounValue t true`, negative ones `setNounValue t false`,
and `toggle` calls `setNounValue t (!noun?.isActive)` with the current reading
sampled at call time. An unknown name is not in the `verbs` record (out of the
specified contract); it resolves to no action. -/
def applyVerb (v : String) (t : VerbTarget) (st : Bool) :
    Bool × List (LogLevel × String) :=
  match verbKind? v with
  | some .pos => setNounValue t true st
  | some .neg => setNounValue t false st
  | some .tog => setNounValue t (!(jsTruthy (optIsActive t st))) st
  | none => (st, [])

/-- A valid Noun bound to a cell: an object named `nm` carrying the hidden
setter capability. -/
def validNoun (nm : String) : VerbTarget := .obj (some nm) true

/-! ### The shared toggle registry (src/src/globalNouns.ts `GlobalNounStore`) -/

/-- A registry diagnostic. `conflict` is the `console.error` emitted by `get`
when an existing entry's tracked `initialValue` differs from the requested one;
it names both values (the captured stack traces are environment data and are
abstracted away). -/
inductive Diag where
  | conflict (key : String) (first second : Bool)
deriving DecidableEq

/-- Severity of a registry diagnostic: the conflict diagnostic is emitted with
`console.error`. -/
def Diag.level : Diag → LogLevel
  | .conflict _ _ _ => .error

/-- A `GlobalToggleEntry`. `nounId` models the identity of the cached Noun
object created once at entry creation (`entry.noun`); ids are allocated from a
monotone counter so distinct Noun objects never share an id. Subscribers are
callback identities in a `Set`, kept in insertion order. `refCount` is an
integer as in JS (the invariant that it stays nonnegative is proved, not
assumed). `initialValue` is `Option` because the field is optional
(`initialValue?: boolean`), though every creation path sets it. -/
structure Entry where
  nounId : Nat
  state : Bool
  subscribers : List Nat
  refCount : Int
  lastAccessed : Nat
  initialValue : Option Bool
deriving DecidableEq

/-- The registry state: the `toggles` map as an association list in insertion
order (a JS `Map` never holds duplicate keys; operations below preserve that),
plus the Noun id allocator. -/
structure Store where
  toggles : List (String × Entry)
  nextNounId : Nat
deriving DecidableEq

def Store.empty : Store := ⟨[], 0⟩

/-- TTL: 5 minutes in milliseconds. -/
def TTL : Nat := 5 * 60 * 1000

/-- `Map.get`: the entry stored under key `k`. -/
def lookupEntry (l : List (String × Entry)) (k : String) : Option Entry :=
  (l.find? (fun p => p.1 == k)).map (fun p => p.2)

/-- `Map.set` on a key already present: replace the stored entry in place. -/
def updateEntry (l : List (String × Entry)) (k : String) (e : Entry) :
    List (String × Entry) :=
  l.map (fun p => if p.1 == k then (k, e) else p)

/-- Result of `GlobalNounStore.get`: the returned Noun (by id), the updated
store, and the diagnostics emitted during the call. `get` itself never throws. -/
structure GetResult where
  noun : Nat
  store : Store
  diags : List Diag
deriving DecidableEq

/-- `GlobalNounStore.get(name, initialValue)` at time `now` (src/src/globalNouns.ts
lines 44-83). An absent key creates an entry with `state = initialValue`,
`refCount = 0`, no subscribers, `initialValue` recorded, and a freshly created
Noun bound to it; an existing key emits one conflict `console.error` when the
tracked `initialValue` is set and differs from the requested one, and returns
the cached Noun. Both paths set `lastAccessed` to now. -/
def Store.get (s : Store) (name : String) (now : Nat) (initialValue : Bool) :
    GetResult :=
  match lookupEntry s.toggles name with
  | none =>
      let e : Entry :=
        { nounId := s.nextNounId, state := initialValue, subscribers := [],
          refCount := 0, lastAccessed := now, initialValue := some initialValue }
      { noun := s.nextNounId,
        store := { toggles := s.toggles ++ [(name, e)], nextNounId := s.nextNounId + 1 },
        diags := [] }
  | some e =>
      let diags : List Diag :=
        match e.initialValue with
        | some old => if old ≠ initialValue then [.conflict name old initialValue] else []
        | none => []
      { noun := e.nounId,
        store := { s with toggles := updateEntry s.toggles name { e with lastAccessed := now } },
        diags := diags }

/-- `get(name)` with the `initialValue` argument omitted: the source declares
`get(name: string, initialValue = false)`, so omission means `false`. -/
def Store.getDefault (s : Store) (name : String) (now : Nat) : GetResult :=
  s.get name now false

/-- `GlobalNounStore.cleanup` at time `now`: delete every entry with
`refCount == 0` whose idle time exceeds the TTL (collect-then-delete over a
key-unique map is the same as a filter). Timestamps are `Nat`; for a clock that
went backwards JS computes a negative difference and `Nat` truncates to `0`,
and both fail the `> TTL` test, so the embeddings agree. -/
def Store.cleanup (s : Store) (now : Nat) : Store :=
  { s with
    toggles := s.toggles.filter
      (fun p => !(decide (p.2.refCount = 0) && decide (now - p.2.lastAccessed > TTL))) }

/-- `GlobalNounStore.acquire`: increment `refCount` of an existing entry;
silent no-op for an unknown key. -/
def Store.acquire (s : Store) (k : String) : Store :=
  match lookupEntry s.toggles k with
  | none => s
  | some e =>
      { s with toggles := updateEntry s.toggles k { e with refCount := e.refCount + 1 } }

/-- `GlobalNounStore.release`: decrement `refCount` floored at zero
(`Math.max(0, refCount - 1)`); silent no-op for an unknown key. -/
def Store.release (s : Store) (k : String) : Store :=
  match lookupEntry s.toggles k with
  | none => s
  | some e =>
      { s with toggles := updateEntry s.toggles k { e with refCount := max 0 (e.refCount - 1) } }

/-- `Set.add` semantics: append the callback unless already present. -/
def addCallback (subs : List Nat) (cb : Nat) : List Nat :=
  if cb ∈ subs then subs else subs ++ [cb]

/-- `GlobalNounStore.subscribe(name, callback)`: throws (`Except.error`) when
the key is not in the map; otherwise adds the callback to the entry's
subscriber set. (The returned unsubscribe capability is `Store.unsubscribe`.) -/
def Store.subscribe (s : Store) (k : String) (cb : Nat) : Except String Store :=
  match lookupEntry s.toggles k with
  | none => .error ("Toggle \"" ++ k ++ "\" not found in global nouns")
  | some e =>
      .ok { s with toggles := updateEntry s.toggles k { e with subscribers := addCallback e.subscribers cb } }

/-- The unsubscribe capability returned by `subscribe`:
`() => entry.subscribers.delete(callback)`. The closure holds the entry; once
the entry has left the map the deletion no longer affects the registry, so on
the registry state it is a no-op. -/
def Store.unsubscribe (s : Store) (k : String) (cb : Nat) : Store :=
  match lookupEntry s.toggles k with
  | none => s
  | some e =>
      { s with toggles := updateEntry s.toggles k { e with subscribers := e.subscribers.filter (fun x => decide (x ≠ cb)) } }

/-- `GlobalNounStore.has`: existence check, no side effects. -/
def Store.hasKey (s : Store) (k : String) : Bool :=
  (lookupEntry s.toggles k).isSome

/-- `GlobalNounStore.clear` / `destroy` as far as the entry map is concerned:
drop all entries (the timer restart/stop has no effect on the map). -/
def Store.clear (s : Store) : Store :=
  { s with toggles := [] }

/-! ### Fan-out: the bound setter closure

The setter created in `get` runs `entry.state = newState` and then
`entry.subscribers.forEach(cb => cb())`. A subscriber callback may call
unsubscribe capabilities of this entry while the fan-out is in progress; JS
`Set.forEach` is live under deletion: it visits, in insertion order, exactly
the elements still in the set when their turn comes. We model a callback's
re-entrant behaviour by the set of callback ids it unsubscribes when invoked
(`cbs : Nat → List Nat`); no additions occur (subscribe during fan-out is not
part of the claims). -/

/-- Live iteration of `Set.forEach` under deletions: walk the insertion-order
snapshot, invoke each element still present in the current set, apply its
deletions, and continue. Returns the invocation log and the final set. -/
def fanout (cbs : Nat → List Nat) : List Nat → List Nat → List Nat × List Nat
  | [], cur => ([], cur)
  | c :: rest, cur =>
      if c ∈ cur then
        let r := fanout cbs rest (cur.filter (fun x => decide (x ∉ cbs c)))
        (c :: r.1, r.2)
      else fanout cbs rest cur

/-- The bound Noun's hidden setter applied to entry `k` with value `v`:
set `entry.state`, then fan out to the subscribers. Returns the updated store
and the invocation log. -/
def Store.setState (s : Store) (k : String) (v : Bool) (cbs : Nat → List Nat) :
    Store × List Nat :=
  match lookupEntry s.toggles k with
  | none => (s, [])
  | some e =>
      let r := fanout cbs e.subscribers e.subscribers
      ({ s with toggles := updateEntry s.toggles k { e with state := v, subscribers := r.2 } }, r.1)

/-! ### Operation sequences (for registry-wide invariants) -/

/-- One registry operation, as observable through the public surface. -/
inductive Op where
  | get (k : String) (now : Nat) (v : Bool)
  | acquire (k : String)
  | release (k : String)
  | sub (k : String) (cb : Nat)
  | unsub (k : String) (cb : Nat)
  | setSt (k : String) (v : Bool) (cbs : Nat → List Nat)
  | cleanup (now : Nat)
  | clear

/-- Apply one operation to the store (a thrown `subscribe` leaves it unchanged). -/
def Store.applyOp (s : Store) : Op → Store
  | .get k now v => (s.get k now v).store
  | .acquire k => s.acquire k
  | .release k => s.release k
  | .sub k cb =>
      match s.subscribe k cb with
      | .ok s' => s'
      | .error _ => s
  | .unsub k cb => s.unsubscribe k cb
  | .setSt k v cbs => (s.setState k v cbs).1
  | .cleanup now => s.cleanup now
  | .clear => s.clear

/-- Run a sequence of registry operations from a starting store. -/
def Store.runOps (s : Store) (ops : List Op) : Store :=
  ops.foldl Store.applyOp s

/-! ### The useToggles nouns proxy get trap (src/index.ts) -/

/-- Is the accessed property a key of the `verbs` record? -/
def isVerbName (p : String) : Bool :=
  p == "toggle"
  || (verbPairs.map (fun q => q.1)).contains p
  || (verbPairs.map (fun q => q.2)).contains p

/-- The verb-name conflict message of the nouns proxy get trap. -/
def invalidNounMsg (p : String) : String :=
  "Invalid noun name \"" ++ p ++ "\": noun names must not conflict with verb names"

/-- What a nouns-proxy property access evaluates to. -/
inductive TrapResult where
  | noun (name : String)
  | undefined
deriving DecidableEq

/-- The `useToggles` nouns proxy get trap (src/index.ts): when the accessed
name collides with a verb name, a development-like configuration
(`NODE_ENV !== 'production'`) throws immediately, while a production-like one
emits the `console.warn` diagnostic and falls through; the fall-through (and
every non-colliding access) creates or reuses the noun for the name and
returns it. -/
def nounsTrapGet (isProd : Bool) (prop : String) :
    Except String (TrapResult × List String) :=
  if isVerbName prop then
    if !isProd then .error (invalidNounMsg prop)
    else .ok (.noun prop, [invalidNounMsg prop])
  else .ok (.noun prop, [])

/-! ### Small auxiliary definitions used by the theorems -/

/-- Is the verb target a valid Noun (an object carrying the hidden setter)? -/
def isValidNoun : VerbTarget → Bool
  | .obj _ true => true
  | _ => false

/-- Does `pat` occur as a prefix of `l`? -/
def charsPrefix : List Char → List Char → Bool
  | [], _ => true
  | _ :: _, [] => false
  | a :: pa, b :: pb => a == b && charsPrefix pa pb

/-- Does `pat` occur as a contiguous run anywhere in `l`? -/
def charsSub (pat : List Char) : List Char → Bool
  | [] => charsPrefix pat []
  | b :: rest => charsPrefix pat (b :: rest) || charsSub pat rest

/-- Substring test on strings (used to state facts about diagnostic texts). -/
def strContainsSub (s pat : String) : Bool :=
  charsSub pat.toList s.toList

/-- Every entry in the store has a nonnegative reference count. -/
def StoreNonneg (s : Store) : Prop :=
  ∀ p ∈ s.toggles, 0 ≤ p.2.refCount

/-- A concrete entry used by witnesses: two subscribers, in insertion order. -/
def sampleEntry : Entry :=
  { nounId := 0, state := false, subscribers := [1, 2], refCount := 0,
    lastAccessed := 0, initialValue := some false }

/-- A concrete one-entry store used by witnesses. -/
def sampleStore : Store :=
  { toggles := [("k", sampleEntry)], nextNounId := 1 }

/-- A concrete entry with a live reference, used by witnesses. -/
def busyEntry : Entry :=
  { nounId := 0, state := false, subscribers := [], refCount := 1,
    lastAccessed := 0, initialValue := some false }

/-! ## Association-list lemmas -/

theorem lookupEntry_cons (p : String × Entry) (t : List (String × Entry)) (k : String) :
    lookupEntry (p :: t) k = if p.1 == k then some p.2 else lookupEntry t k := by
  cases hb : p.1 == k <;> simp [lookupEntry, List.find?, hb]

theorem updateEntry_cons (p : String × Entry) (t : List (String × Entry)) (k : String)
    (e : Entry) :
    updateEntry (p :: t) k e = (if p.1 == k then (k, e) else p) :: updateEntry t k e := rfl

theorem lookupEntry_append_self (l : List (String × Entry)) (k : String) (e : Entry)
    (h : lookupEntry l k = none) : lookupEntry (l ++ [(k, e)]) k = some e := by
  induction l with
  | nil => simp [lookupEntry, List.find?]
  | cons p t ih =>
    rw [lookupEntry_cons] at h
    cases hb : p.1 == k with
    | true => rw [hb] at h; simp at h
    | false =>
      rw [hb] at h
      simp only [List.cons_append, lookupEntry_cons, hb, if_false]
      exact ih h

theorem lookupEntry_append_ne (l : List (String × Entry)) (k k' : String) (e : Entry)
    (h : k' ≠ k) : lookupEntry (l ++ [(k, e)]) k' = lookupEntry l k' := by
  induction l with
  | nil => simp [lookupEntry, List.find?, beq_eq_false_iff_ne.mpr (fun hk => h hk.symm)]
  | cons p t ih =>
    cases hb : p.1 == k' <;>
      simp only [List.cons_append, lookupEntry_cons, hb, if_true, if_false, ih]

theorem lookupEntry_update_self (l : List (String × Entry)) (k : String) (e : Entry) :
    lookupEntry (updateEntry l k e) k = (lookupEntry l k).map (fun _ => e) := by
  induction l with
  | nil => rfl
  | cons p t ih =>
    cases hb : p.1 == k with
    | true =>
      simp only [updateEntry_cons, hb, if_true, lookupEntry_cons, beq_self_eq_true,
        Option.map_some']
    | false =>
      simp [updateEntry_cons, hb, lookupEntry_cons, ih]

theorem lookupEntry_update_ne (l : List (String × Entry)) (k k' : String) (e : Entry)
    (h : k' ≠ k) : lookupEntry (updateEntry l k e) k' = lookupEntry l k' := by
  induction l with
  | nil => rfl
  | cons p t ih =>
    cases hb : p.1 == k with
    | true =>
      have hp : p.1 = k := by simpa using hb
      have hbk : (k == k') = false := beq_eq_false_iff_ne.mpr (fun hk => h hk.symm)
      have hbp : (p.1 == k') = false := by rw [hp]; exact hbk
      simp [updateEntry_cons, hb, lookupEntry_cons, hbk, hbp, ih]
    | false =>
      simp [updateEntry_cons, hb, lookupEntry_cons, ih]

theorem updateEntry_idem (l : List (String × Entry)) (k : String) (e : Entry) :
    updateEntry (updateEntry l k e) k e = updateEntry l k e := by
  induction l with
  | nil => rfl
  | cons p t ih =>
    cases hb : p.1 == k with
    | true =>
      simp [updateEntry_cons, hb, ih]
    | false =>
      simp [updateEntry_cons, hb, ih]

/-! ## C2 — Noun predicate reads -/

/-- C2 counterexample: `"toString"` is a string property that is neither a
predicate-table key nor `"name"`, yet the read is not `undefined`: the JS `in`
check finds the inherited `Object.prototype.toString`, whose value is truthy,
so the program answers `getActive()` — here `true`, a boolean. -/
theorem c2_counterexample :
    lookupPolarity "toString" = none
    ∧ nounPropGet "modal" true (.str "toString") = .bool true
    ∧ NounValue.bool true ≠ NounValue.undefined := by
  refine ⟨by decide, by decide, by decide⟩

/-- C2 amended: for every predicate name `p` in the predicate table and every
boolean `b`, a Noun over accessors currently reading `b` answers `noun[p] = b`
when the polarity of `p` is `true` and `!b` when it is `false`; the key
`"name"` answers the construction-time name; a string property that is neither
a predicate name, nor `"name"`, nor a key inherited from `Object.prototype`
answers `undefined` without error; an inherited `Object.prototype` key (e.g.
`"toString"`) still passes the `prop in nounState` check and its inherited
value is truthy, so the read answers `getActive()` directly. Reads recompute
from the current cell value: `b` is universally quantified at read time, so
the same Noun read after the cell changed answers from the new value (no
caching). -/
theorem c2_noun_predicate_reads (nm : String) (b : Bool) (p : String) (pol : Bool) :
    (lookupPolarity p = some pol →
      nounPropGet nm b (.str p) = .bool (if pol then b else !b))
    ∧ nounPropGet nm b (.str "name") = .str nm
    ∧ (lookupPolarity p = none → objectProtoKeys.contains p = true →
        nounPropGet nm b (.str p) = .bool b)
    ∧ (lookupPolarity p = none → objectProtoKeys.contains p = false → p ≠ "name" →
        nounPropGet nm b (.str p) = .undefined) := by
  refine ⟨?_, ?_, ?_, ?_⟩
  · intro h
    have hname : p ≠ "name" := by
      intro hp
      rw [hp] at h
      have : lookupPolarity "name" = none := by decide
      rw [this] at h
      cases h
    simp [nounPropGet, hname, inNounState, nounStateTruthy, h]
  · simp [nounPropGet]
  · intro h hproto
    have hname : p ≠ "name" := by
      intro hp
      rw [hp] at hproto
      cases hproto
    have hmem : p ∈ objectProtoKeys := by simpa using hproto
    simp [nounPropGet, hname, inNounState, nounStateTruthy, h, hmem]
  · intro h hproto hname
    have hmem : p ∉ objectProtoKeys := by simpa using hproto
    simp [nounPropGet, hname, inNounState, h, hmem]

/-- Witness for C2 at concrete keys: `isOpen` (polarity `true`), `isClosed`
(polarity `false`), the inherited `valueOf`, and the absent `flavour`. -/
theorem c2_witness :
    nounPropGet "modal" true (.str "isOpen") = .bool true
    ∧ nounPropGet "modal" true (.str "isClosed") = .bool false
    ∧ nounPropGet "modal" false (.str "valueOf") = .bool false
    ∧ nounPropGet "modal" true (.str "flavour") = .undefined := by
  refine ⟨?_, ?_, ?_, ?_⟩
  · exact (c2_noun_predicate_reads "modal" true "isOpen" true).1 (by decide)
  · exact (c2_noun_predicate_reads "modal" true "isClosed" false).1 (by decide)
  · exact (c2_noun_predicate_reads "modal" false "valueOf" true).2.2.1 (by decide) (by decide)
  · exact (c2_noun_predicate_reads "modal" true "flavour" true).2.2.2 (by decide) (by decide)
      (by decide)

/-! ## C3 — verb algebra on a valid Noun -/

/-- C3: on a Noun with a working setter, any positive verb forces the cell to
`true` and a second application keeps it `true`; any negative verb forces and
keeps `false`; applying `toggle` twice restores the cell and hence the original
`isActive` reading (toggle is an involution). -/
theorem c3_verb_algebra (nm : String) (st : Bool) (p n : String) :
    (verbKind? p = some .pos →
      (applyVerb p (validNoun nm) st).1 = true
      ∧ (applyVerb p (validNoun nm) ((applyVerb p (validNoun nm) st).1)).1 = true)
    ∧ (verbKind? n = some .neg →
      (applyVerb n (validNoun nm) st).1 = false
      ∧ (applyVerb n (validNoun nm) ((applyVerb n (validNoun nm) st).1)).1 = false)
    ∧ (applyVerb "toggle" (validNoun nm) ((applyVerb "toggle" (validNoun nm) st).1)).1 = st
    ∧ nounPropGet nm
        ((applyVerb "toggle" (validNoun nm) ((applyVerb "toggle" (validNoun nm) st).1)).1)
        (.str "isActive")
      = nounPropGet nm st (.str "isActive") := by
  have hA : lookupPolarity "isActive" = some true := by decide
  have htog : verbKind? "toggle" = some VerbKind.tog := by decide
  have happ : ∀ c : Bool, (applyVerb "toggle" (validNoun nm) c).1 = !c := by
    intro c
    simp [applyVerb, htog, validNoun, optIsActive, nounPropGet, inNounState,
      nounStateTruthy, hA, jsTruthy, setNounValue]
  refine ⟨?_, ?_, ?_, ?_⟩
  · intro h
    constructor <;> simp [applyVerb, h, setNounValue, validNoun]
  · intro h
    constructor <;> simp [applyVerb, h, setNounValue, validNoun]
  · rw [happ, happ, Bool.not_not]
  · rw [happ, happ, Bool.not_not]

/-- Witness for C3 at concrete verbs: `open` is positive, `close` negative. -/
theorem c3_witness :
    (applyVerb "open" (validNoun "modal") false).1 = true
    ∧ (applyVerb "close" (validNoun "modal") true).1 = false := by
  constructor
  · exact ((c3_verb_algebra "modal" false "open" "close").1 (by decide)).1
  · exact ((c3_verb_algebra "modal" true "open" "close").2.1 (by decide)).1

/-! ## C8 — noun/verb name collision at Noun-access time -/

/-- C8 counterexample: in a production-like configuration, accessing the
colliding name `"open"` through the nouns proxy emits the diagnostic but then
falls through and returns a Noun for `"open"` — not `undefined` as the claim
states. -/
theorem c8_counterexample :
    nounsTrapGet true "open"
      = Except.ok (TrapResult.noun "open", [invalidNounMsg "open"])
    ∧ TrapResult.noun "open" ≠ TrapResult.undefined := by
  constructor
  · rfl
  · decide

/-- C8 amended: accessing a noun whose name collides with a verb-table name
throws immediately in development-like configurations; in production-like
configurations it emits exactly the conflict diagnostic and still creates and
returns the Noun (execution continues; no absent value is produced). -/
theorem c8_verb_conflict_behaviour (p : String) (h : isVerbName p = true) :
    nounsTrapGet false p = Except.error (invalidNounMsg p)
    ∧ nounsTrapGet true p = Except.ok (TrapResult.noun p, [invalidNounMsg p]) := by
  constructor <;> simp [nounsTrapGet, h]

/-- Witness for C8 at the colliding name `"open"`. -/
theorem c8_witness :
    nounsTrapGet false "open" = Except.error (invalidNounMsg "open")
    ∧ nounsTrapGet true "open"
        = Except.ok (TrapResult.noun "open", [invalidNounMsg "open"]) :=
  c8_verb_conflict_behaviour "open" (by decide)

/-! ## C9 — verbs applied to invalid targets -/

/-- C9 counterexample: a verb applied to `undefined` (value `true`, e.g. any
positive verb, or `toggle` whose sampled `!undefined?.isActive` is `true`)
emits the message "No setter on noun for positive action", which does not
contain "undefined": the diagnostic does not name the noun for null/undefined
targets, contrary to the claim. -/
theorem c9_counterexample :
    setNounValue VerbTarget.jsUndefined true false
      = (false, [(LogLevel.warn, "No setter on noun for positive action")])
    ∧ strContainsSub "No setter on noun for positive action" "undefined" = false
    ∧ strContainsSub "No setter on noun for positive action" "No setter" = true := by
  refine ⟨by decide, by decide, by decide⟩

theorem charsPrefix_append (pat l r : List Char) (h : charsPrefix pat l = true) :
    charsPrefix pat (l ++ r) = true := by
  induction pat generalizing l with
  | nil => rfl
  | cons a pa ih =>
    cases l with
    | nil => cases h
    | cons b lb =>
      simp only [charsPrefix, Bool.and_eq_true] at h
      simp only [List.cons_append, charsPrefix, Bool.and_eq_true]
      exact ⟨h.1, ih lb h.2⟩

theorem charsPrefix_self (l : List Char) : charsPrefix l l = true := by
  induction l with
  | nil => rfl
  | cons a t ih => simp [charsPrefix, ih]

theorem charsSub_of_prefix (pat l : List Char) (h : charsPrefix pat l = true) :
    charsSub pat l = true := by
  cases l with
  | nil => exact h
  | cons b t => simp [charsSub, h]

theorem charsSub_append_right (pat l r : List Char) (h : charsSub pat r = true) :
    charsSub pat (l ++ r) = true := by
  induction l with
  | nil => exact h
  | cons b t ih =>
    simp only [List.cons_append, charsSub, Bool.or_eq_true]
    right
    exact ih

/-- C9 amended: a verb applied to an invalid target (null, undefined, or an
object lacking the hidden setter) never throws (every property access the
source performs succeeds), performs no mutation, and emits exactly one warning
diagnostic containing "No setter" and the attempted polarity; the diagnostic
names the noun (rendering a missing `name` as "undefined") only when the
target is an object lacking the capability — for null/undefined it carries no
name. `toggle` applied to `undefined` samples `!undefined?.isActive = true`
and warns with positive polarity, without throwing. -/
theorem c9_invalid_target_no_setter (t : VerbTarget) (v : Bool) (st : Bool)
    (h : isValidNoun t = false) :
    setNounValueChecked t v st = Except.ok (setNounValue t v st)
    ∧ (setNounValue t v st).1 = st
    ∧ (∃ msg, (setNounValue t v st).2 = [(LogLevel.warn, msg)]
        ∧ strContainsSub msg "No setter" = true
        ∧ strContainsSub msg (polarityWord v) = true)
    ∧ (∀ nm, t = .obj nm false →
        (setNounValue t v st).2 = [(LogLevel.warn, noSetterNamedMsg (nm.getD "undefined") v)])
    ∧ applyVerb "toggle" VerbTarget.jsUndefined st
        = (st, [(LogLevel.warn, noSetterAnonMsg true)]) := by
  have htog : applyVerb "toggle" VerbTarget.jsUndefined st
      = (st, [(LogLevel.warn, noSetterAnonMsg true)]) := by
    simp [applyVerb, verbKind?, optIsActive, jsTruthy, setNounValue]
  have hanon : ∀ w : Bool,
      strContainsSub (noSetterAnonMsg w) "No setter" = true
      ∧ strContainsSub (noSetterAnonMsg w) (polarityWord w) = true := by
    intro w
    cases w <;> exact ⟨by decide, by decide⟩
  have hdataNamed : ∀ (nmS : String) (w : Bool),
      (noSetterNamedMsg nmS w).data
        = "No setter on noun ".data
          ++ (nmS.data ++ (" for ".data ++ ((polarityWord w).data ++ " action".data))) := by
    intro nmS w
    show ("No setter on noun " ++ nmS ++ " for " ++ polarityWord w ++ " action").data = _
    simp [String.data_append, List.append_assoc]
  have hnamed : ∀ (nmS : String) (w : Bool),
      strContainsSub (noSetterNamedMsg nmS w) "No setter" = true
      ∧ strContainsSub (noSetterNamedMsg nmS w) (polarityWord w) = true := by
    intro nmS w
    constructor
    · show charsSub "No setter".data (noSetterNamedMsg nmS w).data = true
      rw [hdataNamed]
      exact charsSub_of_prefix _ _ (charsPrefix_append _ _ _ (by decide))
    · show charsSub (polarityWord w).data (noSetterNamedMsg nmS w).data = true
      rw [hdataNamed]
      refine charsSub_append_right _ _ _ (charsSub_append_right _ _ _
        (charsSub_append_right _ _ _ ?_))
      exact charsSub_of_prefix _ _ (charsPrefix_append _ _ _ (charsPrefix_self _))
  cases t with
  | jsNull =>
    exact ⟨rfl, rfl, ⟨noSetterAnonMsg v, rfl, (hanon v).1, (hanon v).2⟩,
      fun nm hnm => VerbTarget.noConfusion hnm, htog⟩
  | jsUndefined =>
    exact ⟨rfl, rfl, ⟨noSetterAnonMsg v, rfl, (hanon v).1, (hanon v).2⟩,
      fun nm hnm => VerbTarget.noConfusion hnm, htog⟩
  | obj nm hasSetter =>
    cases hasSetter with
    | true => cases h
    | false =>
      refine ⟨rfl, rfl,
        ⟨noSetterNamedMsg (nm.getD "undefined") v, rfl,
          (hnamed (nm.getD "undefined") v).1, (hnamed (nm.getD "undefined") v).2⟩, ?_, htog⟩
      intro nm' hnm'
      cases hnm'
      rfl

/-- Witness for C9: a plain setter-less object whose `name` is absent warns
naming "undefined"; no mutation happens. -/
theorem c9_witness :
    (setNounValue (VerbTarget.obj none false) true true).1 = true
    ∧ (setNounValue (VerbTarget.obj none false) true true).2
        = [(LogLevel.warn, noSetterNamedMsg "undefined" true)] := by
  constructor
  · exact (c9_invalid_target_no_setter (VerbTarget.obj none false) true true (by decide)).2.1
  · exact (c9_invalid_target_no_setter (VerbTarget.obj none false) true true
      (by decide)).2.2.2.1 none rfl

/-! ## Registry helper lemmas -/

theorem lookupEntry_mem (l : List (String × Entry)) (k : String) (e : Entry)
    (h : lookupEntry l k = some e) : (k, e) ∈ l := by
  induction l with
  | nil => cases h
  | cons p t ih =>
    rw [lookupEntry_cons] at h
    cases hb : p.1 == k with
    | true =>
      rw [hb] at h
      simp only [if_true] at h
      have hp : p.1 = k := by simpa using hb
      have : p = (k, e) := by
        cases p
        simp_all
      rw [← this]
      exact List.mem_cons_self _ _
    | false =>
      rw [hb] at h
      simp only [Bool.false_eq_true, if_false] at h
      exact List.mem_cons_of_mem _ (ih h)

/-- Unfolding `get` on an absent key (the creation branch). -/
theorem get_fresh (s : Store) (k : String) (v : Bool) (now : Nat)
    (h : lookupEntry s.toggles k = none) :
    s.get k now v
      = { noun := s.nextNounId,
          store :=
            { toggles :=
                s.toggles ++
                  [(k, { nounId := s.nextNounId, state := v, subscribers := [],
                         refCount := 0, lastAccessed := now, initialValue := some v })],
              nextNounId := s.nextNounId + 1 },
          diags := [] } := by
  unfold Store.get
  rw [h]

/-- Unfolding `get` on a present key (the cached branch). -/
theorem get_existing (s : Store) (k : String) (e : Entry) (v : Bool) (now : Nat)
    (hl : lookupEntry s.toggles k = some e) :
    s.get k now v
      = { noun := e.nounId,
          store := { s with toggles := updateEntry s.toggles k { e with lastAccessed := now } },
          diags :=
            match e.initialValue with
            | some old => if old ≠ v then [Diag.conflict k old v] else []
            | none => [] } := by
  unfold Store.get
  rw [hl]

/-- Behaviour of `get` on a key that was just created with value `v1`: the
cached Noun is returned unchanged, the conflict diagnostic is emitted exactly
when the requested value differs, and the entry keeps its state and tracked
`initialValue`, with only `lastAccessed` refreshed. -/
theorem get_after_create (s : Store) (k : String) (v1 v2 : Bool) (now1 now2 : Nat)
    (h : lookupEntry s.toggles k = none) :
    ((s.get k now1 v1).store.get k now2 v2).noun = (s.get k now1 v1).noun
    ∧ ((s.get k now1 v1).store.get k now2 v2).diags
        = (if v1 ≠ v2 then [Diag.conflict k v1 v2] else [])
    ∧ lookupEntry ((s.get k now1 v1).store.get k now2 v2).store.toggles k
        = some { nounId := (s.get k now1 v1).noun, state := v1, subscribers := [],
                 refCount := 0, lastAccessed := now2, initialValue := some v1 } := by
  have hg1 := get_fresh s k v1 now1 h
  have hl : lookupEntry (s.get k now1 v1).store.toggles k
      = some { nounId := s.nextNounId, state := v1, subscribers := [],
               refCount := 0, lastAccessed := now1, initialValue := some v1 } := by
    rw [hg1]
    exact lookupEntry_append_self _ _ _ h
  have hg2 := get_existing ((s.get k now1 v1).store) k
    { nounId := s.nextNounId, state := v1, subscribers := [],
      refCount := 0, lastAccessed := now1, initialValue := some v1 } v2 now2 hl
  refine ⟨?_, ?_, ?_⟩
  · rw [hg2, hg1]
  · rw [hg2]
  · rw [hg2]
    show lookupEntry (updateEntry (s.get k now1 v1).store.toggles k
      { nounId := s.nextNounId, state := v1, subscribers := [],
        refCount := 0, lastAccessed := now2, initialValue := some v1 }) k = _
    rw [lookupEntry_update_self, hl, hg1]
    rfl

/-! ## C1 — registry identity and conflict detection -/

/-- C1: after `get(k, v1)` created the entry, `get(k, v2)` returns the very
same Noun (id); when `v2` differs from the tracked initial value exactly one
error-level conflict diagnostic naming both values is emitted (and none when
they agree); the entry's state and tracked `initialValue` stay `v1` (first
writer wins); `get` returns normally in all cases (it is a total function —
never fatal). -/
theorem c1_get_identity_and_conflict (s : Store) (k : String) (v1 v2 : Bool)
    (now1 now2 : Nat) (h : lookupEntry s.toggles k = none) :
    ((s.get k now1 v1).store.get k now2 v2).noun = (s.get k now1 v1).noun
    ∧ (v2 ≠ v1 →
        ((s.get k now1 v1).store.get k now2 v2).diags = [Diag.conflict k v1 v2]
        ∧ (Diag.conflict k v1 v2).level = LogLevel.error)
    ∧ (v2 = v1 → ((s.get k now1 v1).store.get k now2 v2).diags = [])
    ∧ (∃ e, lookupEntry ((s.get k now1 v1).store.get k now2 v2).store.toggles k = some e
        ∧ e.state = v1 ∧ e.initialValue = some v1) := by
  obtain ⟨hnoun, hdiags, hlook⟩ := get_after_create s k v1 v2 now1 now2 h
  refine ⟨hnoun, ?_, ?_, ?_⟩
  · intro hne
    rw [hdiags, if_pos (Ne.symm hne)]
    exact ⟨rfl, rfl⟩
  · intro heq
    rw [hdiags, if_neg (by simp [heq])]
  · exact ⟨_, hlook, rfl, rfl⟩

/-- Witness for C1 at a concrete scenario: key "k" created with `true`,
re-requested with `false`. -/
theorem c1_witness :
    ((Store.empty.get "k" 0 true).store.get "k" 5 false).noun
      = (Store.empty.get "k" 0 true).noun
    ∧ ((Store.empty.get "k" 0 true).store.get "k" 5 false).diags
      = [Diag.conflict "k" true false] := by
  have h := c1_get_identity_and_conflict Store.empty "k" true false 0 5 rfl
  exact ⟨h.1, (h.2.1 (by decide)).1⟩

/-! ## C10 — omitted initial value defaults to false -/

/-- C10: `get(k)` with the initial value omitted is exactly `get(k, false)`
(the declared default); hence after an entry was created with `true`, a later
value-less `get(k)` emits the conflict diagnostic naming `true` and `false`,
still returns the cached Noun, and leaves the state and tracked initial value
at `true`. -/
theorem c10_default_initial_value (s : Store) (k : String) (now1 now2 : Nat)
    (h : lookupEntry s.toggles k = none) :
    (∀ (s' : Store) (k' : String) (n' : Nat), s'.getDefault k' n' = s'.get k' n' false)
    ∧ ((s.get k now1 true).store.getDefault k now2).noun = (s.get k now1 true).noun
    ∧ ((s.get k now1 true).store.getDefault k now2).diags = [Diag.conflict k true false]
    ∧ (∃ e, lookupEntry ((s.get k now1 true).store.getDefault k now2).store.toggles k
        = some e ∧ e.state = true ∧ e.initialValue = some true) := by
  obtain ⟨hnoun, hdiags, hlook⟩ := get_after_create s k true false now1 now2 h
  refine ⟨fun _ _ _ => rfl, hnoun, ?_, ⟨_, hlook, rfl, rfl⟩⟩
  rw [show (s.get k now1 true).store.getDefault k now2
      = (s.get k now1 true).store.get k now2 false from rfl, hdiags]
  simp

/-- Witness for C10 at a concrete scenario. -/
theorem c10_witness :
    ((Store.empty.get "k" 0 true).store.getDefault "k" 7).diags
      = [Diag.conflict "k" true false] := by
  exact (c10_default_initial_value Store.empty "k" 0 7 rfl).2.2.1

/-! ## Branch-unfolding lemmas for the remaining registry operations -/

theorem acquire_absent (s : Store) (k : String)
    (h : lookupEntry s.toggles k = none) : s.acquire k = s := by
  unfold Store.acquire
  rw [h]

theorem acquire_existing (s : Store) (k : String) (e : Entry)
    (h : lookupEntry s.toggles k = some e) :
    s.acquire k
      = { s with toggles := updateEntry s.toggles k { e with refCount := e.refCount + 1 } } := by
  unfold Store.acquire
  rw [h]

theorem release_absent (s : Store) (k : String)
    (h : lookupEntry s.toggles k = none) : s.release k = s := by
  unfold Store.release
  rw [h]

theorem release_existing (s : Store) (k : String) (e : Entry)
    (h : lookupEntry s.toggles k = some e) :
    s.release k
      = { s with toggles := updateEntry s.toggles k { e with refCount := max 0 (e.refCount - 1) } } := by
  unfold Store.release
  rw [h]

theorem subscribe_absent (s : Store) (k : String) (cb : Nat)
    (h : lookupEntry s.toggles k = none) :
    s.subscribe k cb = Except.error ("Toggle \"" ++ k ++ "\" not found in global nouns") := by
  unfold Store.subscribe
  rw [h]

theorem subscribe_existing (s : Store) (k : String) (cb : Nat) (e : Entry)
    (h : lookupEntry s.toggles k = some e) :
    s.subscribe k cb
      = Except.ok
          { s with
            toggles :=
              updateEntry s.toggles k
                { e with subscribers := addCallback e.subscribers cb } } := by
  unfold Store.subscribe
  rw [h]

theorem unsubscribe_absent (s : Store) (k : String) (cb : Nat)
    (h : lookupEntry s.toggles k = none) : s.unsubscribe k cb = s := by
  unfold Store.unsubscribe
  rw [h]

theorem unsubscribe_existing (s : Store) (k : String) (cb : Nat) (e : Entry)
    (h : lookupEntry s.toggles k = some e) :
    s.unsubscribe k cb
      = { s with
          toggles :=
            updateEntry s.toggles k
              { e with subscribers := e.subscribers.filter (fun x => decide (x ≠ cb)) } } := by
  unfold Store.unsubscribe
  rw [h]

theorem setState_absent (s : Store) (k : String) (v : Bool) (cbs : Nat → List Nat)
    (h : lookupEntry s.toggles k = none) : s.setState k v cbs = (s, []) := by
  unfold Store.setState
  rw [h]

theorem setState_existing (s : Store) (k : String) (v : Bool) (cbs : Nat → List Nat)
    (e : Entry) (h : lookupEntry s.toggles k = some e) :
    s.setState k v cbs
      = ({ s with
           toggles :=
             updateEntry s.toggles k
               { e with state := v, subscribers := (fanout cbs e.subscribers e.subscribers).2 } },
          (fanout cbs e.subscribers e.subscribers).1) := by
  unfold Store.setState
  rw [h]

theorem mem_updateEntry (l : List (String × Entry)) (k : String) (e : Entry)
    (p : String × Entry) (hp : p ∈ updateEntry l k e) : p ∈ l ∨ p = (k, e) := by
  unfold updateEntry at hp
  obtain ⟨q, hq, hfq⟩ := List.mem_map.mp hp
  cases hb : q.1 == k with
  | true =>
    right
    rw [← hfq]
    simp [hb]
  | false =>
    left
    rw [← hfq]
    simpa [hb] using hq

/-! ## C4 — eviction sweep -/

/-- C4: the sweep deletes an entry iff `refCount = 0` and the idle time
exceeds the TTL at sweep time; an entry with a positive `refCount` is never
removed regardless of age; and `get` always refreshes `lastAccessed` to the
call time (on both the creation and the cached path). -/
theorem c4_eviction (s : Store) (now : Nat) (k : String) (e : Entry) (v : Bool)
    (nowGet : Nat) :
    ((k, e) ∈ (s.cleanup now).toggles
      ↔ ((k, e) ∈ s.toggles ∧ ¬(e.refCount = 0 ∧ now - e.lastAccessed > TTL)))
    ∧ (0 < e.refCount → (k, e) ∈ s.toggles → (k, e) ∈ (s.cleanup now).toggles)
    ∧ (∃ e', lookupEntry (s.get k nowGet v).store.toggles k = some e'
        ∧ e'.lastAccessed = nowGet) := by
  have hmemiff : (k, e) ∈ (s.cleanup now).toggles
      ↔ ((k, e) ∈ s.toggles ∧ ¬(e.refCount = 0 ∧ now - e.lastAccessed > TTL)) := by
    simp [Store.cleanup, List.mem_filter]
    intro _
    omega
  refine ⟨hmemiff, ?_, ?_⟩
  · intro hpos hmem
    refine hmemiff.mpr ⟨hmem, ?_⟩
    rintro ⟨h0, _⟩
    omega
  · cases hl : lookupEntry s.toggles k with
    | none =>
      rw [get_fresh s k v nowGet hl]
      exact ⟨_, lookupEntry_append_self _ _ _ hl, rfl⟩
    | some e0 =>
      rw [get_existing s k e0 v nowGet hl]
      refine ⟨{ e0 with lastAccessed := nowGet }, ?_, rfl⟩
      show lookupEntry (updateEntry s.toggles k { e0 with lastAccessed := nowGet }) k = _
      rw [lookupEntry_update_self, hl]
      rfl

/-- Witness for C4: an entry with `refCount = 1` survives a sweep at an
arbitrarily late time. -/
theorem c4_witness :
    ("b", busyEntry) ∈ ((Store.mk [("b", busyEntry)] 1).cleanup 999999999).toggles := by
  exact (c4_eviction (Store.mk [("b", busyEntry)] 1) 999999999 "b" busyEntry false 0).2.1
    (by decide) (by decide)

/-! ## C6 — subscribe and the unsubscribe capability -/

/-- C6 counterexample: the claim says subscribe throws iff no entry for the
key has EVER been created. Create "k" (so `has` reports it), let the sweep
evict it (refCount 0, idle beyond the TTL), and subscribe then throws even
though the entry had been created: the actual condition is current presence,
not creation history. -/
theorem c6_counterexample :
    (Store.empty.get "k" 0 false).store.hasKey "k" = true
    ∧ ((Store.empty.get "k" 0 false).store.cleanup 300001).subscribe "k" 5
        = Except.error "Toggle \"k\" not found in global nouns" := by
  constructor
  · rfl
  · rfl

/-- C6 amended: `subscribe(key, callback)` throws a "not found" error iff no
entry for the key is currently in the registry; otherwise it registers the
callback and returns an unsubscribe capability that removes exactly that
callback and is idempotent (a second call, or a call after the entry was
removed from the registry, is a no-op). -/
theorem c6_subscribe_unsubscribe (s : Store) (k : String) (cb : Nat) (e : Entry) :
    (lookupEntry s.toggles k = none →
      s.subscribe k cb = Except.error ("Toggle \"" ++ k ++ "\" not found in global nouns")
      ∧ s.unsubscribe k cb = s)
    ∧ (lookupEntry s.toggles k = some e →
      s.subscribe k cb
        = Except.ok
            { s with
              toggles :=
                updateEntry s.toggles k
                  { e with subscribers := addCallback e.subscribers cb } }
      ∧ cb ∈ addCallback e.subscribers cb
      ∧ lookupEntry (s.unsubscribe k cb).toggles k
          = some { e with subscribers := e.subscribers.filter (fun x => decide (x ≠ cb)) }
      ∧ cb ∉ e.subscribers.filter (fun x => decide (x ≠ cb))
      ∧ (∀ y, y ≠ cb →
          (y ∈ e.subscribers.filter (fun x => decide (x ≠ cb)) ↔ y ∈ e.subscribers))
      ∧ (∀ k', k' ≠ k →
          lookupEntry (s.unsubscribe k cb).toggles k' = lookupEntry s.toggles k'))
    ∧ (s.unsubscribe k cb).unsubscribe k cb = s.unsubscribe k cb := by
  refine ⟨?_, ?_, ?_⟩
  · intro h
    exact ⟨subscribe_absent s k cb h, unsubscribe_absent s k cb h⟩
  · intro h
    refine ⟨subscribe_existing s k cb e h, ?_, ?_, ?_, ?_, ?_⟩
    · unfold addCallback
      by_cases hc : cb ∈ e.subscribers
      · simp [hc]
      · simp [hc]
    · rw [unsubscribe_existing s k cb e h]
      show lookupEntry (updateEntry s.toggles k _) k = _
      rw [lookupEntry_update_self, h]
      rfl
    · simp [List.mem_filter]
    · intro y hy
      simp [List.mem_filter, hy]
    · intro k' hk'
      rw [unsubscribe_existing s k cb e h]
      show lookupEntry (updateEntry s.toggles k _) k' = _
      exact lookupEntry_update_ne _ _ _ _ hk'
  · cases hl : lookupEntry s.toggles k with
    | none =>
      rw [unsubscribe_absent s k cb hl, unsubscribe_absent s k cb hl]
    | some e0 =>
      have hu := unsubscribe_existing s k cb e0 hl
      have hl2 : lookupEntry (s.unsubscribe k cb).toggles k
          = some { e0 with subscribers := e0.subscribers.filter (fun x => decide (x ≠ cb)) } := by
        rw [hu]
        show lookupEntry (updateEntry s.toggles k _) k = _
        rw [lookupEntry_update_self, hl]
        rfl
      have hu2 := unsubscribe_existing (s.unsubscribe k cb) k cb _ hl2
      have hfix : (e0.subscribers.filter (fun x => decide (x ≠ cb))).filter
          (fun x => decide (x ≠ cb)) = e0.subscribers.filter (fun x => decide (x ≠ cb)) :=
        List.filter_eq_self.mpr (fun a ha => (List.mem_filter.mp ha).2)
      rw [hu2, hu]
      show { s with toggles := updateEntry (updateEntry s.toggles k _) k _ } = _
      rw [hfix, updateEntry_idem]

/-- Witness for C6: on the sample store, subscribing callback 3 succeeds with
the callback registered, and unsubscribing twice equals unsubscribing once. -/
theorem c6_witness :
    sampleStore.subscribe "k" 3
      = Except.ok
          { sampleStore with
            toggles :=
              updateEntry sampleStore.toggles "k"
                { sampleEntry with subscribers := addCallback sampleEntry.subscribers 3 } }
    ∧ (sampleStore.unsubscribe "k" 3).unsubscribe "k" 3 = sampleStore.unsubscribe "k" 3 := by
  have h := c6_subscribe_unsubscribe sampleStore "k" 3 sampleEntry
  exact ⟨(h.2.1 rfl).1, h.2.2⟩

/-! ## C7 — reference counting -/

theorem storeNonneg_applyOp (s : Store) (op : Op) (h : StoreNonneg s) :
    StoreNonneg (s.applyOp op) := by
  cases op with
  | get k now v =>
    cases hl : lookupEntry s.toggles k with
    | none =>
      show StoreNonneg (s.get k now v).store
      rw [get_fresh s k v now hl]
      intro p hp
      rcases List.mem_append.mp hp with hp' | hp'
      · exact h p hp'
      · rcases List.mem_singleton.mp hp' with rfl
        exact le_refl 0
    | some e =>
      show StoreNonneg (s.get k now v).store
      rw [get_existing s k e v now hl]
      intro p hp
      rcases mem_updateEntry _ _ _ _ hp with hp' | hp'
      · exact h p hp'
      · rcases hp' with rfl
        exact h (k, e) (lookupEntry_mem s.toggles k e hl)
  | acquire k =>
    cases hl : lookupEntry s.toggles k with
    | none =>
      show StoreNonneg (s.acquire k)
      rw [acquire_absent s k hl]
      exact h
    | some e =>
      show StoreNonneg (s.acquire k)
      rw [acquire_existing s k e hl]
      intro p hp
      rcases mem_updateEntry _ _ _ _ hp with hp' | hp'
      · exact h p hp'
      · rcases hp' with rfl
        have h2 : (0 : Int) ≤ e.refCount := h (k, e) (lookupEntry_mem s.toggles k e hl)
        show (0 : Int) ≤ e.refCount + 1
        omega
  | release k =>
    cases hl : lookupEntry s.toggles k with
    | none =>
      show StoreNonneg (s.release k)
      rw [release_absent s k hl]
      exact h
    | some e =>
      show StoreNonneg (s.release k)
      rw [release_existing s k e hl]
      intro p hp
      rcases mem_updateEntry _ _ _ _ hp with hp' | hp'
      · exact h p hp'
      · rcases hp' with rfl
        exact le_max_left 0 _
  | sub k cb =>
    cases hl : lookupEntry s.toggles k with
    | none =>
      show StoreNonneg (match s.subscribe k cb with | .ok s' => s' | .error _ => s)
      rw [subscribe_absent s k cb hl]
      exact h
    | some e =>
      show StoreNonneg (match s.subscribe k cb with | .ok s' => s' | .error _ => s)
      rw [subscribe_existing s k cb e hl]
      intro p hp
      rcases mem_updateEntry _ _ _ _ hp with hp' | hp'
      · exact h p hp'
      · rcases hp' with rfl
        exact h (k, e) (lookupEntry_mem s.toggles k e hl)
  | unsub k cb =>
    cases hl : lookupEntry s.toggles k with
    | none =>
      show StoreNonneg (s.unsubscribe k cb)
      rw [unsubscribe_absent s k cb hl]
      exact h
    | some e =>
      show StoreNonneg (s.unsubscribe k cb)
      rw [unsubscribe_existing s k cb e hl]
      intro p hp
      rcases mem_updateEntry _ _ _ _ hp with hp' | hp'
      · exact h p hp'
      · rcases hp' with rfl
        exact h (k, e) (lookupEntry_mem s.toggles k e hl)
  | setSt k v cbs =>
    cases hl : lookupEntry s.toggles k with
    | none =>
      show StoreNonneg (s.setState k v cbs).1
      rw [setState_absent s k v cbs hl]
      exact h
    | some e =>
      show StoreNonneg (s.setState k v cbs).1
      rw [setState_existing s k v cbs e hl]
      intro p hp
      rcases mem_updateEntry _ _ _ _ hp with hp' | hp'
      · exact h p hp'
      · rcases hp' with rfl
        exact h (k, e) (lookupEntry_mem s.toggles k e hl)
  | cleanup now =>
    intro p hp
    exact h p (List.mem_filter.mp hp).1
  | clear =>
    intro p hp
    exact absurd hp (List.not_mem_nil p)

theorem storeNonneg_runOps (ops : List Op) (s : Store) (h : StoreNonneg s) :
    StoreNonneg (s.runOps ops) := by
  induction ops generalizing s with
  | nil => exact h
  | cons op ops ih => exact ih _ (storeNonneg_applyOp s op h)

/-- C7: over every sequence of registry operations from the empty registry no
reference count is ever negative; `acquire` increments the count of an
existing entry and is a silent no-op on an unknown key; `release` decrements
floored at zero and is a no-op on an unknown key; and on a freshly created
entry `acquire` followed by `release` leaves the count at zero. -/
theorem c7_refcount_invariant (ops : List Op) (s : Store) (k : String) (e : Entry)
    (now : Nat) (v : Bool) :
    (∀ k' e', lookupEntry (Store.runOps Store.empty ops).toggles k' = some e'
      → 0 ≤ e'.refCount)
    ∧ (lookupEntry s.toggles k = none → s.acquire k = s ∧ s.release k = s)
    ∧ (lookupEntry s.toggles k = some e →
        lookupEntry (s.acquire k).toggles k = some { e with refCount := e.refCount + 1 }
        ∧ lookupEntry (s.release k).toggles k
            = some { e with refCount := max 0 (e.refCount - 1) })
    ∧ (lookupEntry s.toggles k = none →
        lookupEntry (((s.get k now v).store.acquire k).release k).toggles k
          = some { nounId := s.nextNounId, state := v, subscribers := [],
                   refCount := 0, lastAccessed := now, initialValue := some v }) := by
  refine ⟨?_, ?_, ?_, ?_⟩
  · intro k' e' hl
    exact storeNonneg_runOps ops Store.empty (fun p hp => by cases hp) _
      (lookupEntry_mem _ _ _ hl)
  · intro h
    exact ⟨acquire_absent s k h, release_absent s k h⟩
  · intro h
    constructor
    · rw [acquire_existing s k e h]
      show lookupEntry (updateEntry s.toggles k _) k = _
      rw [lookupEntry_update_self, h]
      rfl
    · rw [release_existing s k e h]
      show lookupEntry (updateEntry s.toggles k _) k = _
      rw [lookupEntry_update_self, h]
      rfl
  · intro h
    have h1 : lookupEntry (s.get k now v).store.toggles k
        = some { nounId := s.nextNounId, state := v, subscribers := [],
                 refCount := 0, lastAccessed := now, initialValue := some v } := by
      rw [get_fresh s k v now h]
      exact lookupEntry_append_self _ _ _ h
    have h2 : lookupEntry ((s.get k now v).store.acquire k).toggles k
        = some { nounId := s.nextNounId, state := v, subscribers := [],
                 refCount := 0 + 1, lastAccessed := now, initialValue := some v } := by
      rw [acquire_existing _ k _ h1]
      show lookupEntry (updateEntry _ k _) k = _
      rw [lookupEntry_update_self, h1]
      rfl
    rw [release_existing _ k _ h2]
    show lookupEntry (updateEntry _ k _) k = _
    rw [lookupEntry_update_self, h2]
    simp only [Option.map_some']
    congr 1

/-- Witness for C7: the fresh acquire/release round-trip at a concrete key. -/
theorem c7_witness :
    lookupEntry (((Store.empty.get "q" 3 true).store.acquire "q").release "q").toggles "q"
      = some { nounId := 0, state := true, subscribers := [], refCount := 0,
               lastAccessed := 3, initialValue := some true } := by
  exact (c7_refcount_invariant [] Store.empty "q" sampleEntry 3 true).2.2.2 rfl

/-! ## C5 — fan-out to subscribers -/

theorem fanout_trivial (l : List Nat) :
    ∀ cur : List Nat,
      fanout (fun _ => []) l cur = (l.filter (fun x => decide (x ∈ cur)), cur) := by
  induction l with
  | nil => intro cur; simp [fanout]
  | cons c rest ih =>
    intro cur
    by_cases hc : c ∈ cur
    · have hfilter : cur.filter (fun x => decide (x ∉ ([] : List Nat))) = cur :=
        List.filter_eq_self.mpr (fun a _ => by simp)
      simp [fanout, hc, hfilter, ih]
    · simp [fanout, hc, ih]

theorem fanout_log_mem (cbs : Nat → List Nat) (l : List Nat) :
    ∀ (cur : List Nat) (x : Nat), x ∈ (fanout cbs l cur).1 → x ∈ l := by
  induction l with
  | nil => intro cur x hx; simp [fanout] at hx
  | cons c rest ih =>
    intro cur x hx
    by_cases hc : c ∈ cur
    · simp only [fanout, hc, if_true] at hx
      rcases List.mem_cons.mp hx with rfl | hx'
      · exact List.mem_cons_self _ _
      · exact List.mem_cons_of_mem _ (ih _ x hx')
    · simp only [fanout, hc, if_false] at hx
      exact List.mem_cons_of_mem _ (ih _ x hx)

/-- Each subscriber that is present in the live set at the start and is never
deleted by any invoked callback is invoked exactly once during fan-out. -/
theorem fanout_count (cbs : Nat → List Nat) (l : List Nat) :
    ∀ (cur : List Nat) (x : Nat), l.Nodup → x ∈ cur → (∀ c, x ∉ cbs c) →
      (fanout cbs l cur).1.count x = if x ∈ l then 1 else 0 := by
  induction l with
  | nil =>
    intro cur x _ _ _
    simp [fanout]
  | cons c rest ih =>
    intro cur x hnd hxcur hxcbs
    obtain ⟨hcr, hndr⟩ := List.nodup_cons.mp hnd
    by_cases hc : c ∈ cur
    · have hxcur' : x ∈ cur.filter (fun z => decide (z ∉ cbs c)) :=
        List.mem_filter.mpr ⟨hxcur, by simpa using hxcbs c⟩
      by_cases hxc : x = c
      · subst hxc
        have hrest := ih _ x hndr hxcur' hxcbs
        rw [if_neg hcr] at hrest
        simp only [decide_not] at hrest
        simp [fanout, hc, List.count_cons, hrest]
      · have hrest := ih _ x hndr hxcur' hxcbs
        have hbc : (c == x) = false := beq_eq_false_iff_ne.mpr (fun he => hxc he.symm)
        simp only [decide_not] at hrest
        simp [fanout, hc, List.count_cons, hbc, hrest, List.mem_cons, hxc]
    · have hxc : x ≠ c := fun he => hc (he ▸ hxcur)
      have hrest := ih _ x hndr hxcur hxcbs
      simp [fanout, hc, hrest, List.mem_cons, hxc]

/-- C5: mutating an entry's state through the bound setter stores the new
value and synchronously invokes the subscribers present at that moment: with
no re-entrant unsubscription every subscriber fires exactly once, in insertion
order (the log is the subscriber list itself); a subscriber whose unsubscribe
capability ran beforehand does not fire while the others are untouched; and
when invoked callbacks unsubscribe other callbacks during the fan-out for the
same mutation, every subscriber not itself unsubscribed still fires exactly
once (neither skipped nor double-invoked). -/
theorem c5_fanout_contract (s : Store) (k : String) (e : Entry) (cbs : Nat → List Nat)
    (v : Bool) (x : Nat) (hl : lookupEntry s.toggles k = some e)
    (hnd : e.subscribers.Nodup) :
    (∃ e', lookupEntry (s.setState k v cbs).1.toggles k = some e' ∧ e'.state = v)
    ∧ (s.setState k v (fun _ => [])).2 = e.subscribers
    ∧ (x ∈ e.subscribers → (∀ c, x ∉ cbs c) → (s.setState k v cbs).2.count x = 1)
    ∧ ((s.unsubscribe k x).setState k v cbs).2.count x = 0
    ∧ (∀ y, y ∈ e.subscribers → y ≠ x → (∀ c, y ∉ cbs c) →
        ((s.unsubscribe k x).setState k v cbs).2.count y = 1) := by
  have hl2 : lookupEntry (s.unsubscribe k x).toggles k
      = some { e with subscribers := e.subscribers.filter (fun z => decide (z ≠ x)) } := by
    rw [unsubscribe_existing s k x e hl]
    show lookupEntry (updateEntry s.toggles k _) k = _
    rw [lookupEntry_update_self, hl]
    rfl
  refine ⟨?_, ?_, ?_, ?_, ?_⟩
  · rw [setState_existing s k v cbs e hl]
    refine ⟨{ e with state := v, subscribers := (fanout cbs e.subscribers e.subscribers).2 },
      ?_, rfl⟩
    show lookupEntry (updateEntry s.toggles k _) k = _
    rw [lookupEntry_update_self, hl]
    rfl
  · rw [setState_existing s k v (fun _ => []) e hl]
    show (fanout (fun _ => []) e.subscribers e.subscribers).1 = e.subscribers
    rw [fanout_trivial]
    exact List.filter_eq_self.mpr (fun a ha => by simpa using ha)
  · intro hx hxcbs
    rw [setState_existing s k v cbs e hl]
    show (fanout cbs e.subscribers e.subscribers).1.count x = 1
    rw [fanout_count cbs e.subscribers e.subscribers x hnd hx hxcbs, if_pos hx]
  · rw [setState_existing _ k v cbs _ hl2]
    show (fanout cbs (e.subscribers.filter (fun z => decide (z ≠ x)))
        (e.subscribers.filter (fun z => decide (z ≠ x)))).1.count x = 0
    refine List.count_eq_zero.mpr (fun hmem => ?_)
    have hxf := fanout_log_mem cbs _ _ x hmem
    have := (List.mem_filter.mp hxf).2
    simp at this
  · intro y hy hyx hycbs
    rw [setState_existing _ k v cbs _ hl2]
    show (fanout cbs (e.subscribers.filter (fun z => decide (z ≠ x)))
        (e.subscribers.filter (fun z => decide (z ≠ x)))).1.count y = 1
    have hyf : y ∈ e.subscribers.filter (fun z => decide (z ≠ x)) :=
      List.mem_filter.mpr ⟨hy, by simpa using hyx⟩
    rw [fanout_count cbs _ _ y (hnd.filter _) hyf hycbs, if_pos hyf]

/-- Witness for C5 on the sample store (subscribers 1 and 2): a mutation with
no re-entrant unsubscription invokes [1, 2] in insertion order, and after
unsubscribing callback 1 it no longer fires. -/
theorem c5_witness :
    (sampleStore.setState "k" true (fun _ => [])).2 = [1, 2]
    ∧ ((sampleStore.unsubscribe "k" 1).setState "k" true (fun _ => [])).2.count 1 = 0 := by
  have h := c5_fanout_contract sampleStore "k" sampleEntry (fun _ => []) true 1 rfl (by decide)
  exact ⟨h.2.1, h.2.2.2.1⟩

end Toggles
